import Mathlib

/-!
Shallow embedding of the bid-lifecycle engine of
`farmer-aid-portal-main/backend/app/routers/bids.py` (with the data shapes of
`app/models/schemas.py`).

Firestore documents are modelled as association lists of field name to value
(`Doc`); a collection is an association list of document id to document
(`Coll`).  Python dictionaries are key-unique, so all mutation helpers act on
the first occurrence of a key; `dMerge` (the model of both `dict` assignment
batches and Firestore's `update`) overrides existing keys in place and appends
new keys in order, which matches `dict.update` on key-unique dictionaries.

Python `datetime.now().isoformat()` and `uuid.uuid4()` are non-deterministic;
they enter the model as explicit `now` / fresh-id parameters.
-/

namespace AgriBids

/-- A Firestore/JSON field value: a string, an integer, or Python `None`
(JSON null).  These are the only value shapes the bids router ever writes. -/
inductive DVal where
  | s (v : String)
  | i (v : Int)
  | none
deriving DecidableEq, Repr

/-- Python truthiness of a field value (`if not campaign_id: ...`,
`if bid_data.get('counterAmount') ...`). -/
def dTruthy : DVal → Bool
  | .s v => v ≠ ""
  | .i n => n ≠ 0
  | .none => false

/-- Python `str()` of a value, as used inside f-strings. -/
def renderD : DVal → String
  | .s v => v
  | .i n => toString n
  | .none => "None"

/-- A document: field names to values, in insertion order. -/
abbrev Doc := List (String × DVal)

/-- `dict.get(k)` / `dict[k]` lookup: first entry with the given key. -/
def dGet : Doc → String → Option DVal
  | [], _ => Option.none
  | (k', v) :: rest, k => if k' = k then some v else dGet rest k

/-- `dict.get(k, default)`. -/
def dGetD (d : Doc) (k : String) (v0 : DVal) : DVal :=
  (dGet d k).getD v0

/-- Batch dictionary update (also Firestore `update` field merge): existing
keys are overridden in place, new keys are appended in order. -/
def dMerge (d u : Doc) : Doc :=
  d.map (fun p => match dGet u p.1 with
    | some v => (p.1, v)
    | Option.none => p) ++
  u.filter (fun p => (dGet d p.1).isNone)

/-- Single-key dictionary assignment `d[k] = v`. -/
def dSet (d : Doc) (k : String) (v : DVal) : Doc :=
  dMerge d [(k, v)]

/-- A collection: document ids to documents. -/
abbrev Coll := List (String × Doc)

/-- `collection(c).document(id).get()`: the document, if present. -/
def cGet : Coll → String → Option Doc
  | [], _ => Option.none
  | (i, d) :: rest, id => if i = id then some d else cGet rest id

/-- `collection(c).document(id).set(doc)`: replace or create. -/
def cSet : Coll → String → Doc → Coll
  | [], id, doc => [(id, doc)]
  | (i, d) :: rest, id, doc =>
    if i = id then (i, doc) :: rest else (i, d) :: cSet rest id doc

/-- The successful effect of `collection(c).document(id).update(u)`:
merge `u` into the document named `id`. -/
def cUpdateT : Coll → String → Doc → Coll
  | [], _, _ => []
  | (i, d) :: rest, id, upd =>
    if i = id then (i, dMerge d upd) :: rest else (i, d) :: cUpdateT rest id upd

/-- `collection(c).document(id).update(u)`: Firestore raises NotFound when the
document does not exist, modelled as `Option.none`. -/
def cUpdate (c : Coll) (id : String) (upd : Doc) : Option Coll :=
  if (cGet c id).isSome then some (cUpdateT c id upd) else Option.none

/-- The document store: the three collections the bids router touches. -/
structure DB where
  campaigns : Coll
  bids : Coll
  contracts : Coll
deriving DecidableEq, Repr

/-- An HTTP error response (`HTTPException(status_code, detail)`). -/
structure Err where
  status : Nat
  detail : String
deriving DecidableEq, Repr

/-- The `action` field of `BidAction` (`Literal["accept", "reject",
"counter_offer"]`; FastAPI rejects anything else before the handler runs). -/
inductive BidActionKind where
  | accept
  | reject
  | counterOffer
deriving DecidableEq, Repr

/-- A value acceptable for an `Optional[str]` pydantic field: absent, `None`,
or a string.  (Pydantic v2 does not coerce ints to strings.) -/
def isOptStr : Option DVal → Bool
  | Option.none => true
  | some .none => true
  | some (.s _) => true
  | some (.i _) => false

/-- A value acceptable for a required `str` pydantic field. -/
def isReqStr : Option DVal → Bool
  | some (.s _) => true
  | _ => false

/-- Validation performed by `Bid(**bid_data)` before the handler returns its
response (required fields, the `Literal` constraints on `bidderType` and
`status`, optional string fields).  `createdAt`/`updatedAt` are ISO strings
parsed into `datetime`; the model only requires them to be strings.  Extra
keys (`counterAmount`, `actionNotes`, `rejectedBy`, ...) are ignored by
pydantic and hence unchecked here. -/
def validBidDoc (d : Doc) : Bool :=
  isReqStr (dGet d "campaignId") &&
  (match dGet d "bidderType" with
    | some (.s t) => t == "farmer" || t == "buyer"
    | _ => false) &&
  isOptStr (dGet d "bidderId") &&
  isReqStr (dGet d "bidderName") &&
  isReqStr (dGet d "bidAmount") &&
  isReqStr (dGet d "quantity") &&
  (match dGet d "qualityGrade" with
    | Option.none => true
    | some (.s _) => true
    | _ => false) &&
  isOptStr (dGet d "deliveryTerms") &&
  isOptStr (dGet d "notes") &&
  (match dGet d "status" with
    | some (.s st) =>
      st == "pending" || st == "accepted" || st == "rejected" || st == "counter_offered"
    | _ => false) &&
  isOptStr (dGet d "id") &&
  isOptStr (dGet d "createdAt") &&
  isOptStr (dGet d "updatedAt")

/-- `bids.py` line 175: the campaign-creator type is not read from the
campaign document (that lookup is commented out); it is the constant
`"buyer"` ("Assume buyer campaigns for cross-platform bidding"). -/
def deducedCampaignUserType : String := "buyer"

/-- The two validation checks of the `accept` branch (`bids.py` lines
176-191), as they are written over the local `campaign_user_type` variable:
the own-bid check, then the farmer-must-accept-counter-offer check. -/
def acceptValidation (campaignUserType : String) (bid : Doc) : Option Err :=
  if dGet bid "bidderType" = some (.s campaignUserType) then
    some ⟨400, "A " ++ campaignUserType ++
      " cannot accept their own bid. Only the opposite party can accept bids."⟩
  else if campaignUserType = "farmer" ∧ dGet bid "status" ≠ some (.s "counter_offered") then
    some ⟨400, "Farmers can only accept buyer counter-offers, not initial farmer bids."⟩
  else Option.none

/-- The `actionNotes` stamp of the single-winner sweep (`bids.py` line 208;
note the ASCII hyphen). -/
def autoRejectNote : String := "Automatically rejected - another bid was accepted"

/-- The per-bid test of the single-winner sweep (`bids.py` line 205): a
different bid of the same campaign whose status is `pending` or
`counter_offered` (the campaign restriction comes from the
`where('campaignId', '==', campaign_id)` query). -/
def sweepCond (bidId : String) (campVal : DVal) (p : String × Doc) : Bool :=
  decide (p.1 ≠ bidId) && decide (dGet p.2 "campaignId" = some campVal) &&
    (decide (dGet p.2 "status" = some (.s "pending")) ||
     decide (dGet p.2 "status" = some (.s "counter_offered")))

/-- The rejection update applied by the sweep (`bids.py` lines 206-210). -/
def sweepMark (now : String) (d : Doc) : Doc :=
  dMerge d [("status", .s "rejected"), ("actionNotes", .s autoRejectNote),
            ("updatedAt", .s now)]

/-- The single-winner sweep (`bids.py` lines 196-210): every bid other than
the accepted one whose `campaignId` equals the accepted bid's and whose
status is `pending` or `counter_offered` is updated to `rejected`. -/
def sweepBids (now : String) (bids : Coll) (bidId : String) (campVal : DVal) : Coll :=
  bids.map fun p =>
    if sweepCond bidId campVal p then (p.1, sweepMark now p.2) else p

/-- `bids.py` line 339: `bid_data.get('counterAmount') or
bid_data.get('bidAmount', '')`. -/
def agreedPriceOf (bid : Doc) : DVal :=
  let ca := dGetD bid "counterAmount" .none
  if dTruthy ca then ca else dGetD bid "bidAmount" (.s "")

/-- The contract document synthesized by `_create_contract_from_bid`
(`bids.py` lines 342-367), before its `id` field is set. -/
def contractDocOf (now bidId campId : String) (camp bid : Doc) : Doc :=
  let ap := agreedPriceOf bid
  let isFarmerBid := dGet bid "bidderType" = some (.s "farmer")
  let isBuyerBid := dGet bid "bidderType" = some (.s "buyer")
  [("title", .s ("📄 Contract: " ++ renderD (dGetD camp "title" (.s "Unknown Campaign")))),
   ("crop", dGetD camp "crop" (.s "")),
   ("cropType", dGetD camp "cropType" (.s "")),
   ("location", dGetD camp "location" (.s "")),
   ("duration", dGetD camp "duration" (.s "")),
   ("estimatedYield", dGetD bid "quantity" (.s "")),
   ("minimumQuotation", ap),
   ("currentBid", ap),
   ("totalBids", .i 1),
   ("status", .s "completed"),
   ("contractStatus", .s "active"),
   ("farmerId", if isFarmerBid then dGetD bid "bidderId" .none else dGetD camp "userId" .none),
   ("farmerName", if isFarmerBid then dGetD bid "bidderName" .none else .s "Unknown Farmer"),
   ("buyerId", if isBuyerBid then dGetD bid "bidderId" .none else dGetD camp "userId" .none),
   ("buyerName", if isBuyerBid then dGetD bid "bidderName" .none else .s "Unknown Buyer"),
   ("agreedPrice", ap),
   ("originalCampaignId", .s campId),
   ("originalBidId", .s bidId),
   ("deliveryTerms", dGetD bid "deliveryTerms" (.s "Standard delivery terms")),
   ("qualityGrade", dGetD bid "qualityGrade" (.s "Standard")),
   ("contractNotes", .s ("Contract created from accepted bid. Original bid: " ++
      renderD (dGetD bid "bidAmount" .none) ++
      (if dTruthy (dGetD bid "counterAmount" .none) then
        ", Final negotiated price: " ++ renderD ap
      else ""))),
   ("createdAt", .s now),
   ("updatedAt", .s now)]

/-- The campaign write-back of `_create_contract_from_bid` (`bids.py` lines
376-381). -/
def campaignCompletionUpd (now contractId : String) (ap : DVal) : Doc :=
  [("status", .s "completed"), ("contractId", .s contractId),
   ("finalPrice", ap), ("updatedAt", .s now)]

/-- `_create_contract_from_bid` (`bids.py` lines 322-389).  The whole body is
wrapped in `try/except: pass`, so the function never fails: a missing or
falsy `campaignId`, a non-string `campaignId` (the Firestore client raises on
`document(non_str)`), or an absent campaign document all leave the store
unchanged.  When the campaign exists, the contract is written first and the
campaign is updated second. -/
def createContractFromBid (now contractId : String) (db : DB) (bid : Doc)
    (bidId : String) : DB :=
  match dGet bid "campaignId" with
  | some (.s campId) =>
    if campId = "" then db
    else
      match cGet db.campaigns campId with
      | Option.none => db
      | some camp =>
        match cUpdate db.campaigns campId
            (campaignCompletionUpd now contractId (agreedPriceOf bid)) with
        | some cs =>
          { db with
            contracts := cSet db.contracts contractId
              (dSet (contractDocOf now bidId campId camp bid) "id" (.s contractId)),
            campaigns := cs }
        | Option.none =>
          { db with
            contracts := cSet db.contracts contractId
              (dSet (contractDocOf now bidId campId camp bid) "id" (.s contractId)) }
  | _ => db

/-- `bids.py` lines 239-240: `if action.notes: bid_data['actionNotes'] = ...`
(Python truthiness: `None` and `""` are skipped). -/
def applyNotes (notes : Option String) (bid : Doc) : Doc :=
  match notes with
  | some n => if n ≠ "" then dSet bid "actionNotes" (.s n) else bid
  | Option.none => bid

/-- The bid document as persisted at `bids.py` line 245: `actionNotes`
stamped when notes were supplied, `updatedAt` refreshed. -/
def finalBidDoc (now : String) (notes : Option String) (bid : Doc) : Doc :=
  dSet (applyNotes notes bid) "updatedAt" (.s now)

/-- `bids.py` lines 238-251: stamp `actionNotes`/`updatedAt`, persist the bid
document, then build the `Bid(**bid_data)` response.  The write happens
before the response validation, so a validation failure (500) still leaves
the write in place; on the (unreachable in-sequence) missing-document update
failure nothing is written. -/
def finalizeBid (now : String) (notes : Option String) (db : DB) (bidId : String)
    (bid : Doc) (msg : String) : DB × Except Err (Doc × String) :=
  match cUpdate db.bids bidId (finalBidDoc now notes bid) with
  | some bids =>
    if validBidDoc (dSet (finalBidDoc now notes bid) "id" (.s bidId)) then
      ({ db with bids := bids }, .ok (dSet (finalBidDoc now notes bid) "id" (.s bidId), msg))
    else
      ({ db with bids := bids },
       .error ⟨500, "Error handling bid action: response validation failed"⟩)
  | Option.none => (db, .error ⟨500, "Error handling bid action: 404 No document to update"⟩)

/-- `handle_bid_action` (`PUT /bids/{bid_id}/action`, `bids.py` lines
151-256).  Returns the store after the call together with either the updated
bid and its message, or the HTTP error.  A `KeyError` on
`bid_data['campaignId']` and a Firestore NotFound on a campaign `update` are
caught by the outer `except` and become 500 responses; both occur before any
write. -/
def handleBidAction (now contractId : String) (db : DB) (bidId : String)
    (act : BidActionKind) (counterAmount notes : Option String) :
    DB × Except Err (Doc × String) :=
  match cGet db.bids bidId with
  | Option.none => (db, .error ⟨404, "Bid not found"⟩)
  | some bid0 =>
    match act with
    | .accept =>
      match acceptValidation deducedCampaignUserType bid0 with
      | some e => (db, .error e)
      | Option.none =>
        match dGet (dSet bid0 "status" (.s "accepted")) "campaignId" with
        | Option.none => (db, .error ⟨500, "Error handling bid action: 'campaignId'"⟩)
        | some campVal =>
          finalizeBid now notes
            (createContractFromBid now contractId
              { db with bids := sweepBids now db.bids bidId campVal }
              (dSet bid0 "status" (.s "accepted")) bidId)
            bidId (dSet bid0 "status" (.s "accepted")) "Bid accepted successfully"
    | .reject =>
      if dGet bid0 "bidderType" = some (.s "farmer") then
        finalizeBid now notes db bidId
          (dSet (dSet bid0 "status" (.s "rejected")) "rejectedBy" (.s "buyer"))
          "Farmer bid rejected by buyer"
      else
        finalizeBid now notes db bidId
          (dSet (dSet bid0 "status" (.s "rejected")) "rejectedBy" (.s "farmer"))
          "Buyer counter offer rejected by farmer"
    | .counterOffer =>
      match counterAmount with
      | Option.none => (db, .error ⟨400, "Counter amount required for counter offer"⟩)
      | some ca =>
        if ca = "" then (db, .error ⟨400, "Counter amount required for counter offer"⟩)
        else
          match dGet (dSet (dSet bid0 "status" (.s "counter_offered"))
              "counterAmount" (.s ca)) "campaignId" with
          | some (.s campId) =>
            match cUpdate db.campaigns campId [("currentBid", .s ca), ("updatedAt", .s now)] with
            | some cs =>
              finalizeBid now notes { db with campaigns := cs } bidId
                (dSet (dSet bid0 "status" (.s "counter_offered")) "counterAmount" (.s ca))
                ("Counter offer made: " ++ ca)
            | Option.none =>
              (db, .error ⟨500, "Error handling bid action: 404 No document to update"⟩)
          | Option.none => (db, .error ⟨500, "Error handling bid action: 'campaignId'"⟩)
          | some _ => (db, .error ⟨500, "Error handling bid action: campaignId is not a document path"⟩)

/-- The validated body of `POST /bids` (`BidCreate` in `schemas.py`): FastAPI
has already enforced the field types and `Literal` constraints before
`create_bid` runs. -/
structure BidCreate where
  campaign_id : String
  bidder_type : String
  bidder_id : Option String
  bidder_name : String
  bid_amount : String
  quantity : String
  quality_grade : String
  delivery_terms : Option String
  notes : Option String
  status : String
deriving DecidableEq, Repr

/-- An optional string field as it appears in `model_dump`. -/
def optV : Option String → DVal
  | some v => .s v
  | Option.none => .none

/-- `bid.model_dump(by_alias=True)` plus the `createdAt`/`updatedAt` stamps
(`bids.py` lines 116-118): the stored document uses the camelCase aliases. -/
def bidDocOf (now : String) (b : BidCreate) : Doc :=
  [("campaignId", .s b.campaign_id),
   ("bidderType", .s b.bidder_type),
   ("bidderId", optV b.bidder_id),
   ("bidderName", .s b.bidder_name),
   ("bidAmount", .s b.bid_amount),
   ("quantity", .s b.quantity),
   ("qualityGrade", .s b.quality_grade),
   ("deliveryTerms", optV b.delivery_terms),
   ("notes", optV b.notes),
   ("status", .s b.status),
   ("createdAt", .s now),
   ("updatedAt", .s now)]

/-- `create_bid` (`POST /bids`, `bids.py` lines 103-149): store the document
under a fresh id, echo it back with the id added. -/
def createBid (now bidId : String) (db : DB) (b : BidCreate) : DB × Doc × String :=
  let bd := bidDocOf now b
  ({ db with bids := cSet db.bids bidId bd },
   dSet bd "id" (.s bidId),
   "Bid created successfully by " ++ b.bidder_name)

/-- `get_all_bids` (`GET /bids`, `bids.py` lines 13-45): equality filters on
the snake_case field names `campaign_id` / `bidder_type` / `status` (each
skipped when the query parameter is absent or empty), then each document is
returned with its `id` added. -/
def getAllBids (db : DB) (campaignIdQ bidderTypeQ statusQ : Option String) : List Doc :=
  let q1 : Coll := match campaignIdQ with
    | some c => if c ≠ "" then
        db.bids.filter (fun p => decide (dGet p.2 "campaign_id" = some (.s c)))
      else db.bids
    | Option.none => db.bids
  let q2 : Coll := match bidderTypeQ with
    | some t => if t ≠ "" then
        q1.filter (fun p => decide (dGet p.2 "bidder_type" = some (.s t)))
      else q1
    | Option.none => q1
  let q3 : Coll := match statusQ with
    | some st => if st ≠ "" then
        q2.filter (fun p => decide (dGet p.2 "status" = some (.s st)))
      else q2
    | Option.none => q2
  q3.map (fun p => dSet p.2 "id" (.s p.1))

/-- `'₹'` and `','` stripping before parsing an amount string (`bids.py`
line 284): both replaced patterns are single characters, so
`.replace('₹', '').replace(',', '')` is character filtering. -/
def stripCurrency (v : String) : String :=
  String.mk (v.toList.filter (fun c => decide (c ≠ '₹') && decide (c ≠ ',')))

/-- Leading/trailing-whitespace stripping, as Python `float()` performs on
its argument. -/
def trimChars (cs : List Char) : List Char :=
  ((cs.dropWhile Char.isWhitespace).reverse.dropWhile Char.isWhitespace).reverse

/-- Digit list to number. -/
def digitsToNat (l : List Char) : Nat :=
  l.foldl (fun acc c => acc * 10 + (c.toNat - 48)) 0

/-- Model of Python `float(s)` restricted to plain decimal literals (optional
surrounding whitespace, optional sign, digits with an optional single decimal
point), returning an exact rational.  Exotic accepted forms (`"1e5"`,
`"inf"`, `"nan"`, digit underscores) are not modelled; no claim depends on
them. -/
def pyFloat (v : String) : Option ℚ :=
  let cs := trimChars v.toList
  let signed : Bool × List Char :=
    match cs with
    | '-' :: rest => (true, rest)
    | '+' :: rest => (false, rest)
    | _ => (false, cs)
  let neg := signed.1
  let body := signed.2
  let intPart := body.takeWhile Char.isDigit
  let rest := body.dropWhile Char.isDigit
  let mag : Option ℚ :=
    match rest with
    | [] => if intPart = [] then Option.none else some ((digitsToNat intPart : ℚ))
    | '.' :: frac =>
      if frac.all Char.isDigit ∧ (intPart ≠ [] ∨ frac ≠ []) then
        some ((digitsToNat intPart : ℚ) +
          (digitsToNat frac : ℚ) / ((10 : ℚ) ^ frac.length))
      else Option.none
    | _ => Option.none
  mag.map (fun m => if neg then -m else m)

/-- The amounts entering the average of `get_bidding_stats` (`bids.py` lines
277-287): for each bid document, the `bid_amount` field (snake_case, exactly
as in the source) is taken when truthy; the `₹`/comma-stripped string is
parsed, and anything that fails to parse (or is not a string: `.replace`
raises and the bare `except` skips it) is dropped. -/
def parsedBidAmounts (bids : Coll) : List ℚ :=
  bids.filterMap fun p =>
    match dGet p.2 "bid_amount" with
    | some (.s v) => if v ≠ "" then pyFloat (stripCurrency v) else Option.none
    | _ => Option.none

/-- The average-bid figure of `get_bidding_stats` (`bids.py` line 289),
before its `f"₹{...:,.0f}"` display formatting: sum of the parsed amounts
divided by the count of successfully parsed amounts, `None` when nothing
parsed. -/
def averageBidAmount (bids : Coll) : Option ℚ :=
  let l := parsedBidAmounts bids
  if l = [] then Option.none else some (l.sum / (l.length : ℚ))

/-- The numeric content of `GET /bids/stats` (`bids.py` lines 258-296). -/
structure BiddingStats where
  totalCampaigns : Nat
  activeBids : Nat
  successfulContracts : Nat
  averageBid : Option ℚ
deriving DecidableEq, Repr

/-- `get_bidding_stats` (`bids.py` lines 258-299). -/
def getBiddingStats (db : DB) : BiddingStats :=
  { totalCampaigns := db.campaigns.length,
    activeBids := (db.bids.filter (fun p => decide (dGet p.2 "status" = some (.s "pending")))).length,
    successfulContracts := db.contracts.length,
    averageBid := averageBidAmount db.bids }

/-- The number of bids of a given campaign holding status `accepted`. -/
def acceptedCount (bids : Coll) (campVal : DVal) : Nat :=
  bids.countP fun p =>
    decide (dGet p.2 "campaignId" = some campVal ∧ dGet p.2 "status" = some (.s "accepted"))

/-- Whether an HTTP result is a success. -/
def isOkResp {α : Type} : Except Err α → Bool
  | .ok _ => true
  | .error _ => false

/-! ### Concrete sample states for witnesses and counterexamples -/

/-- A fully pydantic-valid bid document with the given campaign, bidder type
and status. -/
def wBid (cid ty st : String) : Doc :=
  [("campaignId", .s cid), ("bidderType", .s ty), ("bidderId", .s "u1"),
   ("bidderName", .s "Asha"), ("bidAmount", .s "₹2,000"),
   ("quantity", .s "10 quintals"), ("qualityGrade", .s "Grade A"),
   ("deliveryTerms", .none), ("notes", .none), ("status", .s st),
   ("createdAt", .s "2025-01-01T00:00:00"), ("updatedAt", .s "2025-01-01T00:00:00")]

/-- A sample campaign document (buyer-created, as the handler assumes). -/
def wCamp : Doc :=
  [("title", .s "Wheat harvest"), ("crop", .s "Wheat"), ("cropType", .s "Rabi"),
   ("location", .s "Pune"), ("duration", .s "3 months"),
   ("estimatedYield", .s "100 quintals"), ("minimumQuotation", .s "₹1,800"),
   ("currentBid", .s "₹1,900"), ("totalBids", .i 2), ("status", .s "active"),
   ("userType", .s "buyer"), ("userId", .s "buyer9"),
   ("createdAt", .s "2025-01-01T00:00:00"), ("updatedAt", .s "2025-01-01T00:00:00")]

/-! ### Basic lemmas about documents and collections -/

theorem dGet_append (a b : Doc) (k : String) :
    dGet (a ++ b) k = (dGet a k).or (dGet b k) := by
  induction a with
  | nil => simp [dGet]
  | cons p rest ih =>
    obtain ⟨k', v⟩ := p
    by_cases h : k' = k <;> simp [dGet, h, ih]

theorem dGet_map_override (d u : Doc) (k : String) :
    dGet (d.map (fun p => match dGet u p.1 with
      | some v => (p.1, v)
      | Option.none => p)) k =
    (dGet d k).map (fun v => (dGet u k).getD v) := by
  induction d with
  | nil => simp [dGet]
  | cons p rest ih =>
    obtain ⟨k', v⟩ := p
    by_cases h : k' = k
    · subst h
      cases hu : dGet u k' <;> simp [dGet, hu]
    · cases hu : dGet u k' <;> simp [dGet, hu, h, ih]

theorem dGet_filter_isNone (u d : Doc) (k : String) :
    dGet (u.filter (fun p => (dGet d p.1).isNone)) k =
    if (dGet d k).isNone then dGet u k else Option.none := by
  induction u with
  | nil => simp [dGet]
  | cons p rest ih =>
    obtain ⟨k', v⟩ := p
    by_cases h : k' = k
    · subst h
      by_cases hq : (dGet d k').isNone <;> simp [dGet, hq, ih]
    · by_cases hq : (dGet d k').isNone <;> simp [dGet, hq, h, ih]

theorem dGet_dMerge (d u : Doc) (k : String) :
    dGet (dMerge d u) k = (dGet u k).or (dGet d k) := by
  unfold dMerge
  rw [dGet_append, dGet_map_override, dGet_filter_isNone]
  cases hd : dGet d k <;> cases hu : dGet u k <;> simp [hd, hu]

@[simp] theorem dGet_dSet_self (d : Doc) (k : String) (v : DVal) :
    dGet (dSet d k v) k = some v := by
  unfold dSet
  rw [dGet_dMerge]
  simp [dGet]

@[simp] theorem dGet_dSet_ne (d : Doc) (k k' : String) (v : DVal) (h : k' ≠ k) :
    dGet (dSet d k v) k' = dGet d k' := by
  unfold dSet
  rw [dGet_dMerge]
  have hk : ¬ k = k' := fun hh => h hh.symm
  simp [dGet, hk]

theorem dGetD_dSet_ne (d : Doc) (k k' : String) (v v0 : DVal) (h : k' ≠ k) :
    dGetD (dSet d k v) k' v0 = dGetD d k' v0 := by
  unfold dGetD
  rw [dGet_dSet_ne d k k' v h]

theorem cGet_cSet_self (c : Coll) (id : String) (doc : Doc) :
    cGet (cSet c id doc) id = some doc := by
  induction c with
  | nil => simp [cSet, cGet]
  | cons p rest ih =>
    obtain ⟨i, d⟩ := p
    by_cases h : i = id <;> simp [cSet, cGet, h, ih]

theorem cSet_fresh_append (c : Coll) (id : String) (doc : Doc)
    (h : cGet c id = Option.none) : cSet c id doc = c ++ [(id, doc)] := by
  induction c with
  | nil => simp [cSet]
  | cons p rest ih =>
    obtain ⟨i, d⟩ := p
    by_cases hi : i = id
    · simp [cGet, hi] at h
    · simp [cGet, hi] at h
      simp [cSet, hi, ih h]

theorem cGet_cUpdateT_self (c : Coll) (id : String) (upd : Doc) :
    cGet (cUpdateT c id upd) id = (cGet c id).map (fun d => dMerge d upd) := by
  induction c with
  | nil => simp [cUpdateT, cGet]
  | cons p rest ih =>
    obtain ⟨i, d⟩ := p
    by_cases h : i = id <;> simp [cUpdateT, cGet, h, ih]

theorem cGet_cUpdateT_ne (c : Coll) (id id' : String) (upd : Doc) (h : id' ≠ id) :
    cGet (cUpdateT c id upd) id' = cGet c id' := by
  induction c with
  | nil => simp [cUpdateT]
  | cons p rest ih =>
    obtain ⟨i, d⟩ := p
    by_cases hi : i = id
    · subst hi
      have hii : ¬ i = id' := fun hh => h (hh.symm.trans rfl)
      simp [cUpdateT, cGet, hii]
    · by_cases hi' : i = id'
      · subst hi'
        simp [cUpdateT, cGet, hi]
      · simp [cUpdateT, cGet, hi, hi', ih]

theorem mem_cUpdateT_of_ne (c : Coll) (id : String) (upd : Doc) (p : String × Doc)
    (hp : p ∈ c) (hne : p.1 ≠ id) : p ∈ cUpdateT c id upd := by
  induction c with
  | nil => simp at hp
  | cons q rest ih =>
    obtain ⟨i, d⟩ := q
    rcases List.mem_cons.1 hp with h | h
    · subst h
      simp only [cUpdateT]
      rw [if_neg hne]
      exact List.mem_cons_self _ _
    · by_cases hi : i = id
      · simp [cUpdateT, hi]
        right
        exact h
      · simp [cUpdateT, hi]
        right
        exact ih h

theorem mem_cUpdateT_cases (c : Coll) (id : String) (upd : Doc) (q : String × Doc)
    (hq : q ∈ cUpdateT c id upd) : q.1 = id ∨ q ∈ c := by
  induction c with
  | nil => simp [cUpdateT] at hq
  | cons p rest ih =>
    obtain ⟨i, d⟩ := p
    by_cases hi : i = id
    · simp only [cUpdateT, if_pos hi] at hq
      rcases List.mem_cons.1 hq with h | h
      · left
        rw [h, hi]
      · right
        exact List.mem_cons_of_mem _ h
    · simp only [cUpdateT, if_neg hi] at hq
      rcases List.mem_cons.1 hq with h | h
      · right
        rw [h]
        exact List.mem_cons_self _ _
      · rcases ih h with h' | h'
        · left
          exact h'
        · right
          exact List.mem_cons_of_mem _ h'

theorem cUpdateT_map_fst (c : Coll) (id : String) (upd : Doc) :
    (cUpdateT c id upd).map Prod.fst = c.map Prod.fst := by
  induction c with
  | nil => simp [cUpdateT]
  | cons p rest ih =>
    obtain ⟨i, d⟩ := p
    by_cases h : i = id <;> simp [cUpdateT, h, ih]

theorem cUpdateT_length (c : Coll) (id : String) (upd : Doc) :
    (cUpdateT c id upd).length = c.length := by
  have h := cUpdateT_map_fst c id upd
  calc (cUpdateT c id upd).length = ((cUpdateT c id upd).map Prod.fst).length := by
        rw [List.length_map]
    _ = (c.map Prod.fst).length := by rw [h]
    _ = c.length := by rw [List.length_map]

theorem cUpdate_eq_some (c : Coll) (id : String) (upd : Doc)
    (h : (cGet c id).isSome) : cUpdate c id upd = some (cUpdateT c id upd) := by
  simp [cUpdate, h]

theorem cUpdate_eq_none (c : Coll) (id : String) (upd : Doc)
    (h : cGet c id = Option.none) : cUpdate c id upd = Option.none := by
  simp [cUpdate, h]

theorem cSet_length_fresh (c : Coll) (id : String) (doc : Doc)
    (h : cGet c id = Option.none) : (cSet c id doc).length = c.length + 1 := by
  rw [cSet_fresh_append c id doc h]
  simp

theorem mem_cSet_fresh (c : Coll) (id : String) (doc : Doc)
    (h : cGet c id = Option.none) (p : String × Doc) (hp : p ∈ c) :
    p ∈ cSet c id doc := by
  rw [cSet_fresh_append c id doc h]
  exact List.mem_append_left _ hp

/-! ### Lemmas about the sweep, contract derivation, and finalization -/

theorem dGet_sweepMark_status (now : String) (d : Doc) :
    dGet (sweepMark now d) "status" = some (.s "rejected") := by
  unfold sweepMark
  rw [dGet_dMerge]
  simp [dGet]

theorem dGet_sweepMark_actionNotes (now : String) (d : Doc) :
    dGet (sweepMark now d) "actionNotes" = some (.s autoRejectNote) := by
  unfold sweepMark
  rw [dGet_dMerge]
  simp [dGet]

theorem dGet_sweepMark_campaignId (now : String) (d : Doc) :
    dGet (sweepMark now d) "campaignId" = dGet d "campaignId" := by
  unfold sweepMark
  rw [dGet_dMerge]
  simp [dGet]

theorem sweepBids_map_fst (now : String) (c : Coll) (bidId : String) (campVal : DVal) :
    (sweepBids now c bidId campVal).map Prod.fst = c.map Prod.fst := by
  unfold sweepBids
  rw [List.map_map]
  apply List.map_congr_left
  intro p _
  by_cases h : sweepCond bidId campVal p <;> simp [h]

theorem cGet_sweepBids_self (now : String) (c : Coll) (bidId : String) (campVal : DVal) :
    cGet (sweepBids now c bidId campVal) bidId = cGet c bidId := by
  induction c with
  | nil => simp [sweepBids]
  | cons p rest ih =>
    obtain ⟨i, d⟩ := p
    simp only [sweepBids, List.map_cons]
    by_cases hc : sweepCond bidId campVal (i, d) = true
    · have hi : ¬ i = bidId := by
        simp [sweepCond] at hc
        tauto
      rw [if_pos hc]
      show cGet ((i, sweepMark now d) :: _) bidId = cGet ((i, d) :: rest) bidId
      simp only [cGet, if_neg hi]
      simpa [sweepBids] using ih
    · rw [if_neg hc]
      simp only [cGet]
      by_cases hi : i = bidId
      · rw [if_pos hi, if_pos hi]
      · rw [if_neg hi, if_neg hi]
        simpa [sweepBids] using ih

theorem mem_sweepBids_of_cond (now : String) (c : Coll) (bidId : String) (campVal : DVal)
    (p : String × Doc) (hp : p ∈ c) (h : sweepCond bidId campVal p = true) :
    (p.1, sweepMark now p.2) ∈ sweepBids now c bidId campVal := by
  unfold sweepBids
  refine List.mem_map.2 ⟨p, hp, ?_⟩
  show (if sweepCond bidId campVal p then (p.1, sweepMark now p.2) else p) =
    (p.1, sweepMark now p.2)
  rw [if_pos h]

theorem mem_sweepBids_of_not_cond (now : String) (c : Coll) (bidId : String) (campVal : DVal)
    (p : String × Doc) (hp : p ∈ c) (h : sweepCond bidId campVal p = false) :
    p ∈ sweepBids now c bidId campVal := by
  unfold sweepBids
  refine List.mem_map.2 ⟨p, hp, ?_⟩
  show (if sweepCond bidId campVal p then (p.1, sweepMark now p.2) else p) = p
  rw [if_neg]
  simp [h]

theorem mem_sweepBids_cases (now : String) (c : Coll) (bidId : String) (campVal : DVal)
    (q : String × Doc) (hq : q ∈ sweepBids now c bidId campVal) :
    ∃ p ∈ c, q = if sweepCond bidId campVal p then (p.1, sweepMark now p.2) else p := by
  unfold sweepBids at hq
  obtain ⟨p, hp, hpq⟩ := List.mem_map.1 hq
  exact ⟨p, hp, hpq.symm⟩

theorem createContractFromBid_bids (now cid : String) (db : DB) (bid : Doc) (bidId : String) :
    (createContractFromBid now cid db bid bidId).bids = db.bids := by
  unfold createContractFromBid
  repeat' split
  all_goals rfl

theorem createContractFromBid_of_empty (now cid : String) (db : DB) (bid : Doc)
    (bidId : String) (h : dGet bid "campaignId" = some (.s "")) :
    createContractFromBid now cid db bid bidId = db := by
  unfold createContractFromBid
  rw [h]
  simp

theorem createContractFromBid_of_missing (now cid : String) (db : DB) (bid : Doc)
    (bidId campId : String) (h : dGet bid "campaignId" = some (.s campId))
    (hne : campId ≠ "") (hc : cGet db.campaigns campId = Option.none) :
    createContractFromBid now cid db bid bidId = db := by
  unfold createContractFromBid
  rw [h]
  simp [hne, hc]

theorem createContractFromBid_of_found (now cid : String) (db : DB) (bid : Doc)
    (bidId campId : String) (camp : Doc) (h : dGet bid "campaignId" = some (.s campId))
    (hne : campId ≠ "") (hc : cGet db.campaigns campId = some camp) :
    createContractFromBid now cid db bid bidId =
      { db with
        contracts := cSet db.contracts cid
          (dSet (contractDocOf now bidId campId camp bid) "id" (.s cid)),
        campaigns := cUpdateT db.campaigns campId
          (campaignCompletionUpd now cid (agreedPriceOf bid)) } := by
  have hc' : (cGet db.campaigns campId).isSome := by
    rw [hc]
    rfl
  unfold createContractFromBid
  rw [h]
  dsimp only
  rw [if_neg hne, hc]
  dsimp only
  rw [cUpdate_eq_some _ _ _ hc']

theorem finalizeBid_eq (now : String) (notes : Option String) (db : DB) (bidId : String)
    (bid : Doc) (msg : String) (h : (cGet db.bids bidId).isSome) :
    finalizeBid now notes db bidId bid msg =
      (if validBidDoc (dSet (finalBidDoc now notes bid) "id" (.s bidId)) then
        ({ db with bids := cUpdateT db.bids bidId (finalBidDoc now notes bid) },
         .ok (dSet (finalBidDoc now notes bid) "id" (.s bidId), msg))
      else
        ({ db with bids := cUpdateT db.bids bidId (finalBidDoc now notes bid) },
         .error ⟨500, "Error handling bid action: response validation failed"⟩)) := by
  unfold finalizeBid
  rw [cUpdate_eq_some _ _ _ h]

theorem finalizeBid_fst (now : String) (notes : Option String) (db : DB) (bidId : String)
    (bid : Doc) (msg : String) (h : (cGet db.bids bidId).isSome) :
    (finalizeBid now notes db bidId bid msg).1 =
      { db with bids := cUpdateT db.bids bidId (finalBidDoc now notes bid) } := by
  rw [finalizeBid_eq now notes db bidId bid msg h]
  by_cases hv : validBidDoc (dSet (finalBidDoc now notes bid) "id" (.s bidId)) = true
  · rw [if_pos hv]
  · rw [if_neg hv]

theorem finalizeBid_ok (now : String) (notes : Option String) (db : DB) (bidId : String)
    (bid : Doc) (msg : String) (h : (cGet db.bids bidId).isSome)
    (hv : validBidDoc (dSet (finalBidDoc now notes bid) "id" (.s bidId)) = true) :
    finalizeBid now notes db bidId bid msg =
      ({ db with bids := cUpdateT db.bids bidId (finalBidDoc now notes bid) },
       .ok (dSet (finalBidDoc now notes bid) "id" (.s bidId), msg)) := by
  rw [finalizeBid_eq now notes db bidId bid msg h, if_pos hv]

/-! ### The accept path of `handle_bid_action` -/

theorem sweepCond_iff (bidId : String) (campVal : DVal) (p : String × Doc) :
    sweepCond bidId campVal p = true ↔
      p.1 ≠ bidId ∧ dGet p.2 "campaignId" = some campVal ∧
        (dGet p.2 "status" = some (.s "pending") ∨
         dGet p.2 "status" = some (.s "counter_offered")) := by
  simp [sweepCond, and_assoc]

theorem dGet_applyNotes_ne (notes : Option String) (bid : Doc) (k : String)
    (h : k ≠ "actionNotes") : dGet (applyNotes notes bid) k = dGet bid k := by
  unfold applyNotes
  cases notes with
  | none => rfl
  | some n =>
    show dGet (if n ≠ "" then dSet bid "actionNotes" (DVal.s n) else bid) k = dGet bid k
    by_cases hn : n ≠ ""
    · rw [if_pos hn, dGet_dSet_ne bid "actionNotes" k (DVal.s n) h]
    · rw [if_neg hn]

theorem dGet_finalBidDoc_ne (now : String) (notes : Option String) (bid : Doc) (k : String)
    (h1 : k ≠ "updatedAt") (h2 : k ≠ "actionNotes") :
    dGet (finalBidDoc now notes bid) k = dGet bid k := by
  unfold finalBidDoc
  rw [dGet_dSet_ne _ _ _ _ h1, dGet_applyNotes_ne notes bid k h2]

theorem dGet_finalBidDoc_updatedAt (now : String) (notes : Option String) (bid : Doc) :
    dGet (finalBidDoc now notes bid) "updatedAt" = some (.s now) := by
  unfold finalBidDoc
  exact dGet_dSet_self _ _ _

theorem acceptValidation_buyer_none (bid : Doc) :
    acceptValidation "buyer" bid = Option.none ↔
      dGet bid "bidderType" ≠ some (.s "buyer") := by
  unfold acceptValidation
  by_cases h : dGet bid "bidderType" = some (.s "buyer") <;> simp [h]

theorem acceptValidation_farmer_none (bid : Doc)
    (h : dGet bid "bidderType" ≠ some (.s "farmer")) :
    acceptValidation "farmer" bid = Option.none ↔
      dGet bid "status" = some (.s "counter_offered") := by
  unfold acceptValidation
  by_cases hst : dGet bid "status" = some (.s "counter_offered") <;> simp [h, hst]

/-- Pydantic `Bid` validation survives the accept/counter-offer rewrite of the
bid document: the final response document differs from the original bid only
at `status` (set to a legal literal), the unvalidated `counterAmount` /
`actionNotes` keys, and the refreshed `updatedAt` / `id` strings. -/
theorem validBidDoc_resp_of (now bidId : String) (notes : Option String)
    (bid0 inner : Doc) (st : String)
    (hpass : ∀ k, k ≠ "status" → k ≠ "counterAmount" → dGet inner k = dGet bid0 k)
    (hst : dGet inner "status" = some (.s st))
    (hstlit : (st == "pending" || st == "accepted" || st == "rejected" ||
      st == "counter_offered") = true)
    (hv : validBidDoc bid0 = true) :
    validBidDoc (dSet (finalBidDoc now notes inner) "id" (.s bidId)) = true := by
  have pass : ∀ k, k ≠ "id" → k ≠ "updatedAt" → k ≠ "actionNotes" → k ≠ "status" →
      k ≠ "counterAmount" →
      dGet (dSet (finalBidDoc now notes inner) "id" (.s bidId)) k = dGet bid0 k := by
    intro k h1 h2 h3 h4 h5
    rw [dGet_dSet_ne _ _ _ _ h1, dGet_finalBidDoc_ne now notes inner k h2 h3,
      hpass k h4 h5]
  have eSt : dGet (dSet (finalBidDoc now notes inner) "id" (.s bidId)) "status" =
      some (.s st) := by
    rw [dGet_dSet_ne _ _ _ _ (by decide),
      dGet_finalBidDoc_ne now notes inner "status" (by decide) (by decide), hst]
  have eId : dGet (dSet (finalBidDoc now notes inner) "id" (.s bidId)) "id" =
      some (.s bidId) := dGet_dSet_self _ _ _
  have eUp : dGet (dSet (finalBidDoc now notes inner) "id" (.s bidId)) "updatedAt" =
      some (.s now) := by
    rw [dGet_dSet_ne _ _ _ _ (by decide)]
    exact dGet_finalBidDoc_updatedAt now notes inner
  unfold validBidDoc at hv ⊢
  rw [pass "campaignId" (by decide) (by decide) (by decide) (by decide) (by decide),
    pass "bidderType" (by decide) (by decide) (by decide) (by decide) (by decide),
    pass "bidderId" (by decide) (by decide) (by decide) (by decide) (by decide),
    pass "bidderName" (by decide) (by decide) (by decide) (by decide) (by decide),
    pass "bidAmount" (by decide) (by decide) (by decide) (by decide) (by decide),
    pass "quantity" (by decide) (by decide) (by decide) (by decide) (by decide),
    pass "qualityGrade" (by decide) (by decide) (by decide) (by decide) (by decide),
    pass "deliveryTerms" (by decide) (by decide) (by decide) (by decide) (by decide),
    pass "notes" (by decide) (by decide) (by decide) (by decide) (by decide),
    pass "createdAt" (by decide) (by decide) (by decide) (by decide) (by decide),
    eSt, eId, eUp]
  simp only [Bool.and_eq_true] at hv ⊢
  obtain ⟨⟨⟨⟨⟨⟨⟨⟨⟨⟨⟨⟨hv1, hv2⟩, hv3⟩, hv4⟩, hv5⟩, hv6⟩, hv7⟩, hv8⟩, hv9⟩, _⟩, _⟩,
    hv12⟩, _⟩ := hv
  refine ⟨⟨⟨⟨⟨⟨⟨⟨⟨⟨⟨⟨hv1, hv2⟩, hv3⟩, hv4⟩, hv5⟩, hv6⟩, hv7⟩, hv8⟩, hv9⟩, ?_⟩, rfl⟩,
    hv12⟩, rfl⟩
  simpa using hstlit

/-- Unfolding of a successful-precondition `accept` call: the sweep runs over
the pre-state bids, the contract step runs on the swept store, and the target
bid is finalized last. -/
theorem handleBidAction_accept_eq (now cid : String) (db : DB) (bidId : String)
    (ca notes : Option String) (bid0 : Doc)
    (hbid : cGet db.bids bidId = some bid0)
    (hval : acceptValidation deducedCampaignUserType bid0 = Option.none)
    (campVal : DVal) (hcv : dGet bid0 "campaignId" = some campVal) :
    handleBidAction now cid db bidId .accept ca notes =
      finalizeBid now notes
        (createContractFromBid now cid
          { db with bids := sweepBids now db.bids bidId campVal }
          (dSet bid0 "status" (.s "accepted")) bidId)
        bidId (dSet bid0 "status" (.s "accepted")) "Bid accepted successfully" := by
  have hcv' : dGet (dSet bid0 "status" (.s "accepted")) "campaignId" = some campVal := by
    rw [dGet_dSet_ne bid0 "status" "campaignId" (DVal.s "accepted") (by decide)]
    exact hcv
  unfold handleBidAction
  rw [hbid]
  dsimp only
  rw [hval]
  dsimp only
  rw [hcv']

theorem cGet_accept_store_bids (now cid : String) (db : DB) (bidId : String)
    (campVal : DVal) (bid0 : Doc) (hbid : cGet db.bids bidId = some bid0) :
    (cGet (createContractFromBid now cid
      { db with bids := sweepBids now db.bids bidId campVal }
      (dSet bid0 "status" (.s "accepted")) bidId).bids bidId).isSome := by
  rw [createContractFromBid_bids]
  show (cGet (sweepBids now db.bids bidId campVal) bidId).isSome
  rw [cGet_sweepBids_self, hbid]
  rfl

theorem deducedCampaignUserType_eq : deducedCampaignUserType = "buyer" := rfl

theorem handleBidAction_accept_err (now cid : String) (db : DB) (bidId : String)
    (ca notes : Option String) (bid0 : Doc) (e : Err)
    (hbid : cGet db.bids bidId = some bid0)
    (hval : acceptValidation deducedCampaignUserType bid0 = some e) :
    handleBidAction now cid db bidId .accept ca notes = (db, .error e) := by
  unfold handleBidAction
  rw [hbid]
  dsimp only
  rw [hval]

theorem dGet_acceptFinal_status (now : String) (notes : Option String) (bid0 : Doc) :
    dGet (finalBidDoc now notes (dSet bid0 "status" (.s "accepted"))) "status" =
      some (.s "accepted") := by
  rw [dGet_finalBidDoc_ne now notes _ "status" (by decide) (by decide), dGet_dSet_self]

/-- Unfolding of a successful `accept` call all the way to its result pair:
requires the bid to exist, the validation to pass, the `campaignId` key to be
present, and the bid document to be pydantic-valid. -/
theorem handleBidAction_accept_ok (now cid : String) (db : DB) (bidId : String)
    (ca notes : Option String) (bid0 : Doc) (campVal : DVal)
    (hbid : cGet db.bids bidId = some bid0)
    (hval : acceptValidation deducedCampaignUserType bid0 = Option.none)
    (hcv : dGet bid0 "campaignId" = some campVal)
    (hv : validBidDoc bid0 = true) :
    handleBidAction now cid db bidId .accept ca notes =
      ({ createContractFromBid now cid
           { db with bids := sweepBids now db.bids bidId campVal }
           (dSet bid0 "status" (.s "accepted")) bidId with
         bids := cUpdateT (sweepBids now db.bids bidId campVal) bidId
           (finalBidDoc now notes (dSet bid0 "status" (.s "accepted"))) },
       .ok (dSet (finalBidDoc now notes (dSet bid0 "status" (.s "accepted"))) "id" (.s bidId),
            "Bid accepted successfully")) := by
  rw [handleBidAction_accept_eq now cid db bidId ca notes bid0 hbid hval campVal hcv]
  have hsome := cGet_accept_store_bids now cid db bidId campVal bid0 hbid
  have hvresp : validBidDoc
      (dSet (finalBidDoc now notes (dSet bid0 "status" (.s "accepted"))) "id" (.s bidId)) = true :=
    validBidDoc_resp_of now bidId notes bid0 _ "accepted"
      (fun k h1 _ => dGet_dSet_ne _ _ _ _ h1) (dGet_dSet_self _ _ _) (by decide) hv
  rw [finalizeBid_ok now notes _ bidId _ _ hsome hvresp]
  rw [createContractFromBid_bids]

/-! ### Claim C7: accepting an own-type bid always fails -/

/-- **C7.** For every bid B, if the campaign-creator type deduced for B's
campaign (the constant `"buyer"`) equals B's `bidderType`, then
`apply_bid_action(B.id, accept)` fails with the 400 "cannot accept own bid"
error, and the store is returned unchanged. -/
theorem C7_own_bid_accept_fails (now cid : String) (db : DB) (bidId : String)
    (ca notes : Option String) (bid0 : Doc)
    (hbid : cGet db.bids bidId = some bid0)
    (hty : dGet bid0 "bidderType" = some (.s deducedCampaignUserType)) :
    handleBidAction now cid db bidId .accept ca notes =
      (db, .error ⟨400,
        "A buyer cannot accept their own bid. Only the opposite party can accept bids."⟩) := by
  refine handleBidAction_accept_err now cid db bidId ca notes bid0 _ hbid ?_
  unfold acceptValidation
  rw [if_pos hty]
  decide

/-- Witness for C7 at a concrete store. -/
theorem C7_witness :
    handleBidAction "T1" "K1"
        { campaigns := [], bids := [("b1", wBid "c1" "buyer" "pending")], contracts := [] }
        "b1" .accept Option.none Option.none =
      ({ campaigns := [], bids := [("b1", wBid "c1" "buyer" "pending")], contracts := [] },
       .error ⟨400,
         "A buyer cannot accept their own bid. Only the opposite party can accept bids."⟩) :=
  C7_own_bid_accept_fails "T1" "K1" _ "b1" Option.none Option.none
    (wBid "c1" "buyer" "pending") (by decide) (by decide)

/-! ### Claim C2: the accept role rule -/

/-- **C2 (counterexample).** The claim says a buyer-campaign accept succeeds
only from statuses `pending`/`counter_offered`; but the code performs no
status check when the deduced creator type is `"buyer"` (which it always is),
so accepting a farmer bid whose status is already `rejected` succeeds. -/
theorem C2_counterexample :
    deducedCampaignUserType = "buyer" ∧
    dGet (wBid "c1" "farmer" "rejected") "status" = some (.s "rejected") ∧
    isOkResp (handleBidAction "T1" "K1"
      { campaigns := [], bids := [("b1", wBid "c1" "farmer" "rejected")], contracts := [] }
      "b1" .accept Option.none Option.none).2 = true := by
  refine ⟨rfl, by decide, ?_⟩
  decide

/-- **C2 (amended).** The deduced campaign-creator type is always `"buyer"`.
The farmer rule, as written over that variable, would indeed allow an accept
only from status `counter_offered`; under the `"buyer"` deduction a bid of
ANY status passes the accept validation provided its `bidderType` is not
`"buyer"` (not only `pending`/`counter_offered`), and a failed validation
surfaces as the returned error with the store unchanged. -/
theorem C2_accept_role_rule_amended (bid : Doc) :
    (dGet bid "bidderType" ≠ some (.s "farmer") →
      (acceptValidation "farmer" bid = Option.none ↔
        dGet bid "status" = some (.s "counter_offered"))) ∧
    (acceptValidation "buyer" bid = Option.none ↔
      dGet bid "bidderType" ≠ some (.s "buyer")) ∧
    deducedCampaignUserType = "buyer" ∧
    (∀ (now cid : String) (db : DB) (bidId : String) (ca notes : Option String) (e : Err),
      cGet db.bids bidId = some bid →
      acceptValidation deducedCampaignUserType bid = some e →
      handleBidAction now cid db bidId .accept ca notes = (db, .error e)) :=
  ⟨fun h => acceptValidation_farmer_none bid h,
   acceptValidation_buyer_none bid,
   rfl,
   fun now cid db bidId ca notes e hbid hval =>
     handleBidAction_accept_err now cid db bidId ca notes bid e hbid hval⟩

/-- Witness for C2 (amended) at a concrete bid. -/
theorem C2_witness :
    (acceptValidation "farmer" (wBid "c1" "buyer" "pending") = Option.none ↔
      dGet (wBid "c1" "buyer" "pending") "status" = some (.s "counter_offered")) ∧
    (acceptValidation "buyer" (wBid "c1" "buyer" "pending") = Option.none ↔
      dGet (wBid "c1" "buyer" "pending") "bidderType" ≠ some (.s "buyer")) :=
  ⟨(C2_accept_role_rule_amended (wBid "c1" "buyer" "pending")).1 (by decide),
   (C2_accept_role_rule_amended (wBid "c1" "buyer" "pending")).2.1⟩

/-! ### Claim C5: contract-derivation failure is swallowed -/

/-- **C5.** When the contract-derivation step of an accept fails — here via
the modelled failure mode of a falsy (empty) `campaignId`, the first guard of
`_create_contract_from_bid` — the failure is swallowed: the call still
returns success, the bid is persisted as `accepted`, and no contract or
campaign write happens (no rollback, no error). -/
theorem C5_contract_failure_swallowed (now cid : String) (db : DB) (bidId : String)
    (ca notes : Option String) (bid0 : Doc)
    (hbid : cGet db.bids bidId = some bid0)
    (hty : dGet bid0 "bidderType" ≠ some (.s "buyer"))
    (hcv : dGet bid0 "campaignId" = some (.s ""))
    (hv : validBidDoc bid0 = true) :
    (handleBidAction now cid db bidId .accept ca notes).2 =
      .ok (dSet (finalBidDoc now notes (dSet bid0 "status" (.s "accepted"))) "id" (.s bidId),
           "Bid accepted successfully") ∧
    (handleBidAction now cid db bidId .accept ca notes).1.contracts = db.contracts ∧
    (handleBidAction now cid db bidId .accept ca notes).1.campaigns = db.campaigns ∧
    cGet (handleBidAction now cid db bidId .accept ca notes).1.bids bidId =
      some (dMerge bid0 (finalBidDoc now notes (dSet bid0 "status" (.s "accepted")))) ∧
    dGet (dMerge bid0 (finalBidDoc now notes (dSet bid0 "status" (.s "accepted")))) "status" =
      some (.s "accepted") := by
  have hval : acceptValidation deducedCampaignUserType bid0 = Option.none := by
    rw [deducedCampaignUserType_eq]
    exact (acceptValidation_buyer_none bid0).2 hty
  have heq := handleBidAction_accept_ok now cid db bidId ca notes bid0 (.s "") hbid hval hcv hv
  have hempty : createContractFromBid now cid
      { db with bids := sweepBids now db.bids bidId (.s "") }
      (dSet bid0 "status" (.s "accepted")) bidId =
      { db with bids := sweepBids now db.bids bidId (.s "") } :=
    createContractFromBid_of_empty _ _ _ _ _
      (by rw [dGet_dSet_ne _ _ _ _ (by decide)]; exact hcv)
  rw [heq, hempty]
  refine ⟨rfl, rfl, rfl, ?_, ?_⟩
  · show cGet (cUpdateT (sweepBids now db.bids bidId (.s "")) bidId _) bidId = _
    rw [cGet_cUpdateT_self, cGet_sweepBids_self, hbid]
    rfl
  · rw [dGet_dMerge, dGet_acceptFinal_status]
    rfl

/-- Witness for C5 at a concrete store (bid with empty `campaignId`). -/
theorem C5_witness :
    validBidDoc (wBid "" "farmer" "pending") = true ∧
    (handleBidAction "T1" "K1"
      { campaigns := [("c1", wCamp)], bids := [("b1", wBid "" "farmer" "pending")],
        contracts := [] }
      "b1" .accept Option.none Option.none).1.campaigns = [("c1", wCamp)] ∧
    (handleBidAction "T1" "K1"
      { campaigns := [("c1", wCamp)], bids := [("b1", wBid "" "farmer" "pending")],
        contracts := [] }
      "b1" .accept Option.none Option.none).1.contracts = [] :=
  ⟨by decide,
   (C5_contract_failure_swallowed "T1" "K1" _ "b1" Option.none Option.none
      (wBid "" "farmer" "pending") (by decide) (by decide) (by decide) (by decide)).2.2.1,
   (C5_contract_failure_swallowed "T1" "K1" _ "b1" Option.none Option.none
      (wBid "" "farmer" "pending") (by decide) (by decide) (by decide) (by decide)).2.1⟩

/-! ### Claim C9: accept with a dangling campaign reference -/

/-- **C9.** For every bid whose `campaignId` refers to no campaign document,
an accept still returns success with the bid persisted as `accepted` and the
single-winner sweep applied, but no contract is created and no campaign
document is modified (the contract helper returns early on the missing
campaign). -/
theorem C9_accept_without_campaign (now cid : String) (db : DB) (bidId campId : String)
    (ca notes : Option String) (bid0 : Doc)
    (hbid : cGet db.bids bidId = some bid0)
    (hty : dGet bid0 "bidderType" ≠ some (.s "buyer"))
    (hcv : dGet bid0 "campaignId" = some (.s campId))
    (hne : campId ≠ "")
    (hcamp : cGet db.campaigns campId = Option.none)
    (hv : validBidDoc bid0 = true) :
    (handleBidAction now cid db bidId .accept ca notes).2 =
      .ok (dSet (finalBidDoc now notes (dSet bid0 "status" (.s "accepted"))) "id" (.s bidId),
           "Bid accepted successfully") ∧
    (handleBidAction now cid db bidId .accept ca notes).1.contracts = db.contracts ∧
    (handleBidAction now cid db bidId .accept ca notes).1.campaigns = db.campaigns ∧
    cGet (handleBidAction now cid db bidId .accept ca notes).1.bids bidId =
      some (dMerge bid0 (finalBidDoc now notes (dSet bid0 "status" (.s "accepted")))) ∧
    dGet (dMerge bid0 (finalBidDoc now notes (dSet bid0 "status" (.s "accepted")))) "status" =
      some (.s "accepted") ∧
    (∀ p ∈ db.bids, p.1 ≠ bidId →
      (sweepCond bidId (.s campId) p = true →
        (p.1, sweepMark now p.2) ∈ (handleBidAction now cid db bidId .accept ca notes).1.bids) ∧
      (sweepCond bidId (.s campId) p = false →
        p ∈ (handleBidAction now cid db bidId .accept ca notes).1.bids)) := by
  have hval : acceptValidation deducedCampaignUserType bid0 = Option.none := by
    rw [deducedCampaignUserType_eq]
    exact (acceptValidation_buyer_none bid0).2 hty
  have heq := handleBidAction_accept_ok now cid db bidId ca notes bid0 (.s campId) hbid hval hcv hv
  have hmissing : createContractFromBid now cid
      { db with bids := sweepBids now db.bids bidId (.s campId) }
      (dSet bid0 "status" (.s "accepted")) bidId =
      { db with bids := sweepBids now db.bids bidId (.s campId) } :=
    createContractFromBid_of_missing _ _ _ _ _ campId
      (by rw [dGet_dSet_ne _ _ _ _ (by decide)]; exact hcv) hne hcamp
  rw [heq, hmissing]
  refine ⟨rfl, rfl, rfl, ?_, ?_, ?_⟩
  · show cGet (cUpdateT (sweepBids now db.bids bidId (.s campId)) bidId _) bidId = _
    rw [cGet_cUpdateT_self, cGet_sweepBids_self, hbid]
    rfl
  · rw [dGet_dMerge, dGet_acceptFinal_status]
    rfl
  · intro p hp hpne
    constructor
    · intro hsc
      exact mem_cUpdateT_of_ne _ _ _ _
        (mem_sweepBids_of_cond now db.bids bidId (.s campId) p hp hsc) hpne
    · intro hsc
      exact mem_cUpdateT_of_ne _ _ _ _
        (mem_sweepBids_of_not_cond now db.bids bidId (.s campId) p hp hsc) hpne

/-- Witness for C9 at a concrete store: the referenced campaign is absent,
the sibling pending bid gets swept. -/
theorem C9_witness :
    (handleBidAction "T1" "K1"
      { campaigns := [], bids := [("b1", wBid "c1" "farmer" "pending"),
        ("b2", wBid "c1" "farmer" "pending")], contracts := [] }
      "b1" .accept Option.none Option.none).1.contracts = [] ∧
    (handleBidAction "T1" "K1"
      { campaigns := [], bids := [("b1", wBid "c1" "farmer" "pending"),
        ("b2", wBid "c1" "farmer" "pending")], contracts := [] }
      "b1" .accept Option.none Option.none).1.campaigns = [] ∧
    ("b2", sweepMark "T1" (wBid "c1" "farmer" "pending")) ∈
      (handleBidAction "T1" "K1"
        { campaigns := [], bids := [("b1", wBid "c1" "farmer" "pending"),
          ("b2", wBid "c1" "farmer" "pending")], contracts := [] }
        "b1" .accept Option.none Option.none).1.bids := by
  have h := C9_accept_without_campaign "T1" "K1"
    { campaigns := [], bids := [("b1", wBid "c1" "farmer" "pending"),
      ("b2", wBid "c1" "farmer" "pending")], contracts := [] }
    "b1" "c1" Option.none Option.none (wBid "c1" "farmer" "pending")
    (by decide) (by decide) (by decide) (by decide) (by decide) (by decide)
  exact ⟨h.2.1, h.2.2.1,
    (h.2.2.2.2.2 ("b2", wBid "c1" "farmer" "pending") (by decide) (by decide)).1 (by decide)⟩

/-! ### Claim C4: the single-winner sweep -/

/-- **C4 (counterexample).** The sweep stamp written by the code is the
ASCII-hyphen string `"Automatically rejected - another bid was accepted"`,
not the claim's em-dash string `"Automatically rejected — another bid was
accepted"`; at a concrete accept with a pending sibling, the sibling's
`actionNotes` carries the hyphen string, which differs from the claimed
one. -/
theorem C4_counterexample :
    dGet (sweepMark "T1" (wBid "c1" "farmer" "pending")) "actionNotes" =
      some (.s "Automatically rejected - another bid was accepted") ∧
    ("b2", sweepMark "T1" (wBid "c1" "farmer" "pending")) ∈
      (handleBidAction "T1" "K1"
        { campaigns := [], bids := [("b1", wBid "c1" "farmer" "counter_offered"),
          ("b2", wBid "c1" "farmer" "pending")], contracts := [] }
        "b1" .accept Option.none Option.none).1.bids ∧
    "Automatically rejected - another bid was accepted" ≠
      "Automatically rejected — another bid was accepted" := by
  decide

/-- **C4 (amended).** Same as the claim but with the stamp the code actually
writes (`autoRejectNote`, ASCII hyphen): a successful accept rewrites every
other bid of the same campaign in status `pending`/`counter_offered` to
`rejected` with `actionNotes = autoRejectNote`, and leaves every other bid
(other statuses, or other campaigns) unchanged by the sweep. -/
theorem C4_sweep_amended (now cid : String) (db : DB) (bidId : String)
    (ca notes : Option String) (bid0 : Doc) (campVal : DVal)
    (hbid : cGet db.bids bidId = some bid0)
    (hval : acceptValidation deducedCampaignUserType bid0 = Option.none)
    (hcv : dGet bid0 "campaignId" = some campVal)
    (hv : validBidDoc bid0 = true) :
    ∀ p ∈ db.bids, p.1 ≠ bidId →
      ((dGet p.2 "campaignId" = some campVal ∧
        (dGet p.2 "status" = some (.s "pending") ∨
         dGet p.2 "status" = some (.s "counter_offered"))) →
        ((p.1, sweepMark now p.2) ∈ (handleBidAction now cid db bidId .accept ca notes).1.bids ∧
         dGet (sweepMark now p.2) "status" = some (.s "rejected") ∧
         dGet (sweepMark now p.2) "actionNotes" = some (.s autoRejectNote))) ∧
      (¬(dGet p.2 "campaignId" = some campVal ∧
        (dGet p.2 "status" = some (.s "pending") ∨
         dGet p.2 "status" = some (.s "counter_offered"))) →
        p ∈ (handleBidAction now cid db bidId .accept ca notes).1.bids) := by
  have heq := handleBidAction_accept_ok now cid db bidId ca notes bid0 campVal hbid hval hcv hv
  intro p hp hpne
  constructor
  · intro hcnd
    have hsc : sweepCond bidId campVal p = true :=
      (sweepCond_iff bidId campVal p).2 ⟨hpne, hcnd.1, hcnd.2⟩
    refine ⟨?_, dGet_sweepMark_status now p.2, dGet_sweepMark_actionNotes now p.2⟩
    rw [heq]
    exact mem_cUpdateT_of_ne _ _ _ _
      (mem_sweepBids_of_cond now db.bids bidId campVal p hp hsc) hpne
  · intro hcnd
    have hsc : sweepCond bidId campVal p = false := by
      cases hb : sweepCond bidId campVal p
      · rfl
      · exact absurd ⟨((sweepCond_iff bidId campVal p).1 hb).2.1,
          ((sweepCond_iff bidId campVal p).1 hb).2.2⟩ hcnd
    rw [heq]
    exact mem_cUpdateT_of_ne _ _ _ _
      (mem_sweepBids_of_not_cond now db.bids bidId campVal p hp hsc) hpne

/-- Witness for C4 (amended): the same-campaign pending sibling is swept to
`rejected`, the other-campaign pending bid is untouched. -/
theorem C4_witness :
    ("b2", sweepMark "T1" (wBid "c1" "farmer" "pending")) ∈
      (handleBidAction "T1" "K1"
        { campaigns := [], bids := [("b1", wBid "c1" "farmer" "counter_offered"),
          ("b2", wBid "c1" "farmer" "pending"), ("b3", wBid "c2" "farmer" "pending")],
          contracts := [] }
        "b1" .accept Option.none Option.none).1.bids ∧
    ("b3", wBid "c2" "farmer" "pending") ∈
      (handleBidAction "T1" "K1"
        { campaigns := [], bids := [("b1", wBid "c1" "farmer" "counter_offered"),
          ("b2", wBid "c1" "farmer" "pending"), ("b3", wBid "c2" "farmer" "pending")],
          contracts := [] }
        "b1" .accept Option.none Option.none).1.bids := by
  have h := C4_sweep_amended "T1" "K1"
    { campaigns := [], bids := [("b1", wBid "c1" "farmer" "counter_offered"),
      ("b2", wBid "c1" "farmer" "pending"), ("b3", wBid "c2" "farmer" "pending")],
      contracts := [] }
    "b1" Option.none Option.none (wBid "c1" "farmer" "counter_offered") (.s "c1")
    (by decide) (by decide) (by decide) (by decide)
  exact ⟨((h ("b2", wBid "c1" "farmer" "pending") (by decide) (by decide)).1 (by decide)).1,
    (h ("b3", wBid "c2" "farmer" "pending") (by decide) (by decide)).2 (by decide)⟩

/-! ### Claim C1: the single-winner invariant -/

theorem countP_le_one_of_key (l : List (String × Doc)) (P : String × Doc → Bool)
    (id : String) (hnd : (l.map Prod.fst).Nodup)
    (h : ∀ q ∈ l, P q = true → q.1 = id) : l.countP P ≤ 1 := by
  induction l with
  | nil => simp
  | cons q rest ih =>
    simp only [List.map_cons, List.nodup_cons] at hnd
    by_cases hq : P q = true
    · have hqid : q.1 = id := h q (List.mem_cons_self _ _) hq
      have hrest : rest.countP P = 0 := by
        rw [List.countP_eq_zero]
        intro a ha hPa
        have haid : a.1 = id := h a (List.mem_cons_of_mem _ ha) hPa
        exact hnd.1 (haid.trans hqid.symm ▸ List.mem_map_of_mem Prod.fst ha)
      rw [List.countP_cons_of_pos _ _ hq, hrest]
    · rw [List.countP_cons_of_neg _ _ hq]
      exact ih hnd.2 (fun a ha hPa => h a (List.mem_cons_of_mem _ ha) hPa)

/-- **C1 (counterexample).** With a sibling bid already in status `accepted`,
accepting a second (pending, farmer) bid of the same campaign succeeds and
leaves TWO accepted bids: the sweep only rejects `pending`/`counter_offered`
siblings, so the claim's "at most one accepted ... even when a sibling bid
already held status accepted" is false on the code. -/
theorem C1_counterexample :
    isOkResp (handleBidAction "T1" "K1"
      { campaigns := [], bids := [("b1", wBid "c1" "farmer" "accepted"),
        ("b2", wBid "c1" "farmer" "pending")], contracts := [] }
      "b2" .accept Option.none Option.none).2 = true ∧
    acceptedCount (handleBidAction "T1" "K1"
      { campaigns := [], bids := [("b1", wBid "c1" "farmer" "accepted"),
        ("b2", wBid "c1" "farmer" "pending")], contracts := [] }
      "b2" .accept Option.none Option.none).1.bids (.s "c1") = 2 := by
  decide

/-- **C1 (amended).** The single-winner bound holds after a successful accept
PROVIDED no other bid of the campaign already held status `accepted` before
the call (and bid ids are unique): afterwards at most one bid of the campaign
has status `accepted`. -/
theorem C1_single_winner_amended (now cid : String) (db : DB) (bidId : String)
    (ca notes : Option String) (bid0 : Doc) (campVal : DVal)
    (hbid : cGet db.bids bidId = some bid0)
    (hval : acceptValidation deducedCampaignUserType bid0 = Option.none)
    (hcv : dGet bid0 "campaignId" = some campVal)
    (hv : validBidDoc bid0 = true)
    (hnodup : (db.bids.map Prod.fst).Nodup)
    (hsib : ∀ p ∈ db.bids, p.1 ≠ bidId →
      ¬(dGet p.2 "campaignId" = some campVal ∧
        dGet p.2 "status" = some (.s "accepted"))) :
    acceptedCount (handleBidAction now cid db bidId .accept ca notes).1.bids campVal ≤ 1 := by
  have heq := handleBidAction_accept_ok now cid db bidId ca notes bid0 campVal hbid hval hcv hv
  rw [heq]
  show acceptedCount
    (cUpdateT (sweepBids now db.bids bidId campVal) bidId
      (finalBidDoc now notes (dSet bid0 "status" (.s "accepted")))) campVal ≤ 1
  unfold acceptedCount
  apply countP_le_one_of_key _ _ bidId
  · rw [cUpdateT_map_fst, sweepBids_map_fst]
    exact hnodup
  · intro q hq hP
    rw [decide_eq_true_iff] at hP
    rcases mem_cUpdateT_cases _ _ _ q hq with hkey | hmem
    · exact hkey
    · obtain ⟨p, hp, hqp⟩ := mem_sweepBids_cases now db.bids bidId campVal q hmem
      by_cases hc : sweepCond bidId campVal p = true
      · rw [if_pos hc] at hqp
        subst hqp
        have := hP.2
        rw [dGet_sweepMark_status] at this
        exact absurd this (by decide)
      · rw [if_neg hc] at hqp
        subst hqp
        by_cases hqid : q.1 = bidId
        · exact hqid
        · exact absurd hP (hsib q hp hqid)

/-- Witness for C1 (amended) at a concrete store with no pre-accepted
sibling. -/
theorem C1_witness :
    acceptedCount (handleBidAction "T1" "K1"
      { campaigns := [], bids := [("b1", wBid "c1" "farmer" "pending"),
        ("b2", wBid "c1" "farmer" "rejected")], contracts := [] }
      "b1" .accept Option.none Option.none).1.bids (.s "c1") ≤ 1 :=
  C1_single_winner_amended "T1" "K1"
    { campaigns := [], bids := [("b1", wBid "c1" "farmer" "pending"),
      ("b2", wBid "c1" "farmer" "rejected")], contracts := [] }
    "b1" Option.none Option.none (wBid "c1" "farmer" "pending") (.s "c1")
    (by decide) (by decide) (by decide) (by decide) (by decide) (by decide)

/-! ### Claim C3: contract derivation on accept -/

theorem agreedPriceOf_dSet_status (bid : Doc) (v : DVal) :
    agreedPriceOf (dSet bid "status" v) = agreedPriceOf bid := by
  unfold agreedPriceOf dGetD
  rw [dGet_dSet_ne _ _ _ _ (by decide), dGet_dSet_ne _ _ _ _ (by decide)]

theorem dGet_contractDoc_agreedPrice (now cid bidId campId : String) (camp bid : Doc) :
    dGet (dSet (contractDocOf now bidId campId camp bid) "id" (.s cid)) "agreedPrice" =
      some (agreedPriceOf bid) := by
  rw [dGet_dSet_ne _ _ _ _ (by decide)]
  simp [contractDocOf, dGet]

theorem agreedPriceOf_counter (bid : Doc) (cav : String)
    (hca : dGet bid "counterAmount" = some (.s cav)) (hne : cav ≠ "") :
    agreedPriceOf bid = .s cav := by
  unfold agreedPriceOf dGetD
  rw [hca]
  simp [dTruthy, hne]

theorem agreedPriceOf_no_counter (bid : Doc)
    (hca : dGet bid "counterAmount" = Option.none ∨
      dGet bid "counterAmount" = some (.s "") ∨
      dGet bid "counterAmount" = some DVal.none) :
    agreedPriceOf bid = dGetD bid "bidAmount" (.s "") := by
  unfold agreedPriceOf dGetD
  rcases hca with h | h | h <;> rw [h] <;> simp [dTruthy]

/-- **C3.** A successful accept of a bid whose parent campaign exists creates
exactly one contract (under a fresh contract id): the contract collection
grows by one, keeps every old entry, and the new document's `agreedPrice` is
the bid's `counterAmount` when present and non-empty, else its `bidAmount`;
the parent campaign is merged with `status = completed`, `contractId = <new
id>` and `finalPrice = agreedPrice`. -/
theorem C3_contract_derivation (now cid : String) (db : DB) (bidId campId : String)
    (ca notes : Option String) (bid0 camp : Doc)
    (hbid : cGet db.bids bidId = some bid0)
    (hty : dGet bid0 "bidderType" ≠ some (.s "buyer"))
    (hcv : dGet bid0 "campaignId" = some (.s campId))
    (hne : campId ≠ "")
    (hcamp : cGet db.campaigns campId = some camp)
    (hfresh : cGet db.contracts cid = Option.none)
    (hv : validBidDoc bid0 = true) :
    (handleBidAction now cid db bidId .accept ca notes).2 =
      .ok (dSet (finalBidDoc now notes (dSet bid0 "status" (.s "accepted"))) "id" (.s bidId),
           "Bid accepted successfully") ∧
    (handleBidAction now cid db bidId .accept ca notes).1.contracts.length =
      db.contracts.length + 1 ∧
    (∀ p ∈ db.contracts, p ∈ (handleBidAction now cid db bidId .accept ca notes).1.contracts) ∧
    cGet (handleBidAction now cid db bidId .accept ca notes).1.contracts cid =
      some (dSet (contractDocOf now bidId campId camp (dSet bid0 "status" (.s "accepted")))
        "id" (.s cid)) ∧
    dGet (dSet (contractDocOf now bidId campId camp (dSet bid0 "status" (.s "accepted")))
        "id" (.s cid)) "agreedPrice" = some (agreedPriceOf bid0) ∧
    (∀ cav : String, dGet bid0 "counterAmount" = some (.s cav) → cav ≠ "" →
      agreedPriceOf bid0 = .s cav) ∧
    ((dGet bid0 "counterAmount" = Option.none ∨
      dGet bid0 "counterAmount" = some (.s "") ∨
      dGet bid0 "counterAmount" = some DVal.none) →
      agreedPriceOf bid0 = dGetD bid0 "bidAmount" (.s "")) ∧
    cGet (handleBidAction now cid db bidId .accept ca notes).1.campaigns campId =
      some (dMerge camp (campaignCompletionUpd now cid (agreedPriceOf bid0))) ∧
    dGet (dMerge camp (campaignCompletionUpd now cid (agreedPriceOf bid0))) "status" =
      some (.s "completed") ∧
    dGet (dMerge camp (campaignCompletionUpd now cid (agreedPriceOf bid0))) "contractId" =
      some (.s cid) ∧
    dGet (dMerge camp (campaignCompletionUpd now cid (agreedPriceOf bid0))) "finalPrice" =
      some (agreedPriceOf bid0) := by
  have hval : acceptValidation deducedCampaignUserType bid0 = Option.none := by
    rw [deducedCampaignUserType_eq]
    exact (acceptValidation_buyer_none bid0).2 hty
  have heq := handleBidAction_accept_ok now cid db bidId ca notes bid0 (.s campId) hbid hval hcv hv
  have hfound := createContractFromBid_of_found now cid
    { db with bids := sweepBids now db.bids bidId (.s campId) }
    (dSet bid0 "status" (.s "accepted")) bidId campId camp
    (by rw [dGet_dSet_ne _ _ _ _ (by decide)]; exact hcv) hne hcamp
  rw [agreedPriceOf_dSet_status] at hfound
  rw [heq, hfound]
  refine ⟨rfl, ?_, ?_, ?_, dGet_contractDoc_agreedPrice now cid bidId campId camp _ |>.trans
      (by rw [agreedPriceOf_dSet_status]),
    fun cav hca hcane => agreedPriceOf_counter bid0 cav hca hcane,
    fun hca => agreedPriceOf_no_counter bid0 hca, ?_, ?_, ?_, ?_⟩
  · exact cSet_length_fresh db.contracts cid _ hfresh
  · intro p hp
    exact mem_cSet_fresh db.contracts cid _ hfresh p hp
  · exact cGet_cSet_self db.contracts cid _
  · rw [cGet_cUpdateT_self, hcamp]
    rfl
  · rw [dGet_dMerge]
    simp [campaignCompletionUpd, dGet]
  · rw [dGet_dMerge]
    simp [campaignCompletionUpd, dGet]
  · rw [dGet_dMerge]
    simp [campaignCompletionUpd, dGet]

/-- Witness for C3 at a concrete store: campaign present, fresh contract id,
counter-offered bid accepted at the counter amount. -/
theorem C3_witness :
    (handleBidAction "T1" "K1"
      { campaigns := [("c1", wCamp)],
        bids := [("b1", dSet (wBid "c1" "farmer" "counter_offered") "counterAmount" (.s "₹2,200"))],
        contracts := [] }
      "b1" .accept Option.none Option.none).1.contracts.length = 0 + 1 ∧
    agreedPriceOf (dSet (wBid "c1" "farmer" "counter_offered") "counterAmount" (.s "₹2,200")) =
      .s "₹2,200" ∧
    dGet (dMerge wCamp (campaignCompletionUpd "T1" "K1"
      (agreedPriceOf (dSet (wBid "c1" "farmer" "counter_offered") "counterAmount" (.s "₹2,200")))))
      "status" = some (.s "completed") := by
  have h := C3_contract_derivation "T1" "K1"
    { campaigns := [("c1", wCamp)],
      bids := [("b1", dSet (wBid "c1" "farmer" "counter_offered") "counterAmount" (.s "₹2,200"))],
      contracts := [] }
    "b1" "c1" Option.none Option.none
    (dSet (wBid "c1" "farmer" "counter_offered") "counterAmount" (.s "₹2,200")) wCamp
    (by decide) (by decide) (by decide) (by decide) (by decide) (by decide) (by decide)
  exact ⟨h.2.1, h.2.2.2.2.2.1 "₹2,200" (by decide) (by decide), h.2.2.2.2.2.2.2.2.1⟩

/-! ### Claim C6: counter-offer semantics -/

theorem handleBidAction_counter_eq (now cid : String) (db : DB) (bidId campId : String)
    (ca : String) (notes : Option String) (bid0 : Doc)
    (hbid : cGet db.bids bidId = some bid0)
    (hca : ca ≠ "")
    (hcv : dGet bid0 "campaignId" = some (.s campId))
    (hcamp : (cGet db.campaigns campId).isSome) :
    handleBidAction now cid db bidId .counterOffer (some ca) notes =
      finalizeBid now notes
        { db with campaigns := (cUpdateT db.campaigns campId
            [("currentBid", .s ca), ("updatedAt", .s now)]) }
        bidId (dSet (dSet bid0 "status" (.s "counter_offered")) "counterAmount" (.s ca))
        ("Counter offer made: " ++ ca) := by
  have hcv' : dGet (dSet (dSet bid0 "status" (.s "counter_offered"))
      "counterAmount" (.s ca)) "campaignId" = some (.s campId) := by
    rw [dGet_dSet_ne _ _ _ _ (by decide), dGet_dSet_ne _ _ _ _ (by decide)]
    exact hcv
  unfold handleBidAction
  rw [hbid]
  dsimp only
  rw [if_neg hca, hcv']
  dsimp only
  rw [cUpdate_eq_some _ _ _ hcamp]

/-- **C6.** `counter_offer` fails with 400 when `counterAmount` is missing or
empty, leaving the store untouched; otherwise (campaign present) it succeeds,
persists the bid with status `counter_offered` and the stored
`counterAmount`, merges `currentBid = counterAmount` into the parent
campaign, changes no other bid, keeps the bid count, and writes no
contract. -/
theorem C6_counter_offer (now cid : String) (db : DB) (bidId campId : String)
    (notes : Option String) (bid0 camp : Doc)
    (hbid : cGet db.bids bidId = some bid0)
    (hcv : dGet bid0 "campaignId" = some (.s campId))
    (hcamp : cGet db.campaigns campId = some camp)
    (hv : validBidDoc bid0 = true) :
    handleBidAction now cid db bidId .counterOffer Option.none notes =
      (db, .error ⟨400, "Counter amount required for counter offer"⟩) ∧
    handleBidAction now cid db bidId .counterOffer (some "") notes =
      (db, .error ⟨400, "Counter amount required for counter offer"⟩) ∧
    ∀ ca : String, ca ≠ "" →
      (handleBidAction now cid db bidId .counterOffer (some ca) notes).2 =
        .ok (dSet (finalBidDoc now notes
          (dSet (dSet bid0 "status" (.s "counter_offered")) "counterAmount" (.s ca)))
          "id" (.s bidId), "Counter offer made: " ++ ca) ∧
      cGet (handleBidAction now cid db bidId .counterOffer (some ca) notes).1.bids bidId =
        some (dMerge bid0 (finalBidDoc now notes
          (dSet (dSet bid0 "status" (.s "counter_offered")) "counterAmount" (.s ca)))) ∧
      dGet (dMerge bid0 (finalBidDoc now notes
        (dSet (dSet bid0 "status" (.s "counter_offered")) "counterAmount" (.s ca))))
        "status" = some (.s "counter_offered") ∧
      dGet (dMerge bid0 (finalBidDoc now notes
        (dSet (dSet bid0 "status" (.s "counter_offered")) "counterAmount" (.s ca))))
        "counterAmount" = some (.s ca) ∧
      cGet (handleBidAction now cid db bidId .counterOffer (some ca) notes).1.campaigns campId =
        some (dMerge camp [("currentBid", .s ca), ("updatedAt", .s now)]) ∧
      dGet (dMerge camp [("currentBid", .s ca), ("updatedAt", .s now)]) "currentBid" =
        some (.s ca) ∧
      (∀ p ∈ db.bids, p.1 ≠ bidId →
        p ∈ (handleBidAction now cid db bidId .counterOffer (some ca) notes).1.bids) ∧
      (handleBidAction now cid db bidId .counterOffer (some ca) notes).1.bids.length =
        db.bids.length ∧
      (handleBidAction now cid db bidId .counterOffer (some ca) notes).1.contracts =
        db.contracts := by
  refine ⟨?_, ?_, ?_⟩
  · unfold handleBidAction
    rw [hbid]
  · unfold handleBidAction
    rw [hbid]
    dsimp only
    rw [if_pos rfl]
  · intro ca hca
    have hcampS : (cGet db.campaigns campId).isSome := by
      rw [hcamp]
      rfl
    have heq := handleBidAction_counter_eq now cid db bidId campId ca notes bid0
      hbid hca hcv hcampS
    have hsome : (cGet ({ db with campaigns := (cUpdateT db.campaigns campId
        [("currentBid", .s ca), ("updatedAt", .s now)]) } : DB).bids bidId).isSome := by
      show (cGet db.bids bidId).isSome
      rw [hbid]
      rfl
    have hvresp : validBidDoc (dSet (finalBidDoc now notes
        (dSet (dSet bid0 "status" (.s "counter_offered")) "counterAmount" (.s ca)))
        "id" (.s bidId)) = true :=
      validBidDoc_resp_of now bidId notes bid0 _ "counter_offered"
        (fun k h1 h2 => by rw [dGet_dSet_ne _ _ _ _ h2, dGet_dSet_ne _ _ _ _ h1])
        (by rw [dGet_dSet_ne _ _ _ _ (by decide)]; exact dGet_dSet_self _ _ _)
        (by decide) hv
    rw [heq, finalizeBid_ok now notes _ bidId _ _ hsome hvresp]
    refine ⟨rfl, ?_, ?_, ?_, ?_, ?_, ?_, ?_, rfl⟩
    · show cGet (cUpdateT db.bids bidId _) bidId = _
      rw [cGet_cUpdateT_self, hbid]
      rfl
    · rw [dGet_dMerge, dGet_finalBidDoc_ne now notes _ "status" (by decide) (by decide),
        dGet_dSet_ne _ _ _ _ (by decide), dGet_dSet_self]
      rfl
    · rw [dGet_dMerge, dGet_finalBidDoc_ne now notes _ "counterAmount" (by decide) (by decide),
        dGet_dSet_self]
      rfl
    · show cGet (cUpdateT db.campaigns campId _) campId = _
      rw [cGet_cUpdateT_self, hcamp]
      rfl
    · rw [dGet_dMerge]
      simp [dGet]
    · intro p hp hpne
      exact mem_cUpdateT_of_ne _ _ _ _ hp hpne
    · exact cUpdateT_length db.bids bidId _

/-- Witness for C6 at a concrete store. -/
theorem C6_witness :
    handleBidAction "T1" "K1"
      { campaigns := [("c1", wCamp)], bids := [("b1", wBid "c1" "farmer" "pending")],
        contracts := [] }
      "b1" .counterOffer Option.none Option.none =
      ({ campaigns := [("c1", wCamp)], bids := [("b1", wBid "c1" "farmer" "pending")],
         contracts := [] },
       .error ⟨400, "Counter amount required for counter offer"⟩) ∧
    dGet (dMerge wCamp [("currentBid", .s "₹2,500"), ("updatedAt", .s "T1")]) "currentBid" =
      some (.s "₹2,500") := by
  have h := C6_counter_offer "T1" "K1"
    { campaigns := [("c1", wCamp)], bids := [("b1", wBid "c1" "farmer" "pending")],
      contracts := [] }
    "b1" "c1" Option.none (wBid "c1" "farmer" "pending") wCamp
    (by decide) (by decide) (by decide) (by decide)
  exact ⟨h.1, (h.2.2 "₹2,500" (by decide)).2.2.2.2.2.1⟩

/-! ### Claim C8: the bid-stats average -/

theorem parsedBidAmounts_append (a b : Coll) :
    parsedBidAmounts (a ++ b) = parsedBidAmounts a ++ parsedBidAmounts b := by
  unfold parsedBidAmounts
  exact List.filterMap_append a b _

theorem parsedBidAmounts_single_parsed (i : String) (d : Doc) (v : String) (q : ℚ)
    (hd : dGet d "bid_amount" = some (.s v)) (hv : v ≠ "")
    (hq : pyFloat (stripCurrency v) = some q) :
    parsedBidAmounts [(i, d)] = [q] := by
  simp [parsedBidAmounts, hd, hv, hq]

theorem parsedBidAmounts_single_skipped (i : String) (d : Doc) (v : String)
    (hd : dGet d "bid_amount" = some (.s v))
    (hq : pyFloat (stripCurrency v) = Option.none) :
    parsedBidAmounts [(i, d)] = [] := by
  by_cases hv : v = "" <;> simp [parsedBidAmounts, hd, hv, hq]

/-- **C8 (counterexample).** A bid created via `submit_bid` with the
perfectly parsable amount `"₹2,000"` is NOT included in the stats average:
`create_bid` stores the amount under the camelCase key `bidAmount`
(`model_dump(by_alias=True)`), while `get_bidding_stats` reads the
snake_case key `bid_amount`, so over a store holding exactly that bid the
average is `None` instead of `2000`. -/
theorem C8_counterexample :
    pyFloat (stripCurrency "₹2,000") = some 2000 ∧
    averageBidAmount (createBid "T1" "nb" { campaigns := [], bids := [], contracts := [] }
      ⟨"c1", "farmer", Option.none, "N", "₹2,000", "10 quintals", "Grade A",
       Option.none, Option.none, "pending"⟩).1.bids = Option.none := by
  constructor
  · decide
  · decide

/-- **C8 (amended).** The averaging mechanics are as claimed — strip `₹` and
commas, skip anything that still fails to parse, divide the sum of parsed
amounts by the count of parsed amounts only (`None` when nothing parses) —
but the figure is computed from the snake_case `bid_amount` field, and bids
created via `submit_bid` are stored under `bidAmount`, so every bid created
through that interface is EXCLUDED from the average rather than included. -/
theorem C8_stats_average_amended :
    (∀ (db : DB) (now bidId : String) (b : BidCreate),
      cGet db.bids bidId = Option.none →
      averageBidAmount (createBid now bidId db b).1.bids = averageBidAmount db.bids) ∧
    (∀ (bids : Coll) (i : String) (d : Doc) (v : String) (q : ℚ),
      dGet d "bid_amount" = some (.s v) → v ≠ "" →
      pyFloat (stripCurrency v) = some q →
      averageBidAmount (bids ++ [(i, d)]) =
        some (((parsedBidAmounts bids).sum + q) /
          (((parsedBidAmounts bids).length : ℚ) + 1))) ∧
    (∀ (bids : Coll) (i : String) (d : Doc) (v : String),
      dGet d "bid_amount" = some (.s v) →
      pyFloat (stripCurrency v) = Option.none →
      averageBidAmount (bids ++ [(i, d)]) = averageBidAmount bids) ∧
    averageBidAmount [] = Option.none := by
  refine ⟨?_, ?_, ?_, rfl⟩
  · intro db now bidId b hfresh
    unfold createBid
    show averageBidAmount (cSet db.bids bidId (bidDocOf now b)) = _
    rw [cSet_fresh_append db.bids bidId _ hfresh]
    unfold averageBidAmount
    rw [parsedBidAmounts_append]
    have : parsedBidAmounts [(bidId, bidDocOf now b)] = [] := by
      have hbd : dGet (bidDocOf now b) "bid_amount" = Option.none := by
        simp [bidDocOf, dGet]
      simp [parsedBidAmounts, hbd]
    rw [this, List.append_nil]
  · intro bids i d v q hd hv hq
    unfold averageBidAmount
    rw [parsedBidAmounts_append, parsedBidAmounts_single_parsed i d v q hd hv hq]
    have hne : parsedBidAmounts bids ++ [q] ≠ [] := by simp
    rw [if_neg hne]
    congr 1
    rw [List.sum_append, List.length_append]
    push_cast
    simp
  · intro bids i d v hd hq
    unfold averageBidAmount
    rw [parsedBidAmounts_append, parsedBidAmounts_single_skipped i d v hd hq,
      List.append_nil]

/-- Witness for C8 (amended): a freshly created bid leaves the average
untouched, while a raw document carrying `bid_amount` is averaged in. -/
theorem C8_witness :
    averageBidAmount (createBid "T1" "nb" { campaigns := [], bids := [], contracts := [] }
      ⟨"c1", "farmer", Option.none, "N", "₹2,000", "10 quintals", "Grade A",
       Option.none, Option.none, "pending"⟩).1.bids = averageBidAmount [] ∧
    averageBidAmount [("x", [("bid_amount", DVal.s "₹3,000")])] =
      some (((parsedBidAmounts []).sum + 3000) / (((parsedBidAmounts []).length : ℚ) + 1)) :=
  ⟨C8_stats_average_amended.1 { campaigns := [], bids := [], contracts := [] } "T1" "nb"
    ⟨"c1", "farmer", Option.none, "N", "₹2,000", "10 quintals", "Grade A",
     Option.none, Option.none, "pending"⟩ (by decide),
   C8_stats_average_amended.2.1 [] "x" [("bid_amount", DVal.s "₹3,000")] "₹3,000" 3000
    (by decide) (by decide) (by decide)⟩

/-! ### Claim C10: camelCase storage vs snake_case listing filters -/

/-- **C10.** A bid created via `submit_bid` is stored under camelCase keys
(`campaignId`, `bidderType`, `bidAmount`) and carries no snake_case
`campaign_id`/`bidder_type` keys; `get_all_bids` filters on the snake_case
keys, so the `campaign_id`-filtered listing is unchanged by the creation:
the created bid is never returned by that query. -/
theorem C10_create_list_mismatch (now bidId : String) (db : DB) (b : BidCreate)
    (hfresh : cGet db.bids bidId = Option.none)
    (hc : b.campaign_id ≠ "") :
    dGet (bidDocOf now b) "campaignId" = some (.s b.campaign_id) ∧
    dGet (bidDocOf now b) "bidderType" = some (.s b.bidder_type) ∧
    dGet (bidDocOf now b) "bidAmount" = some (.s b.bid_amount) ∧
    dGet (bidDocOf now b) "campaign_id" = Option.none ∧
    dGet (bidDocOf now b) "bidder_type" = Option.none ∧
    cGet (createBid now bidId db b).1.bids bidId = some (bidDocOf now b) ∧
    getAllBids (createBid now bidId db b).1 (some b.campaign_id) Option.none Option.none =
      getAllBids db (some b.campaign_id) Option.none Option.none := by
  have hsnake : dGet (bidDocOf now b) "campaign_id" = Option.none := by
    simp [bidDocOf, dGet]
  refine ⟨by simp [bidDocOf, dGet], by simp [bidDocOf, dGet], by simp [bidDocOf, dGet],
    hsnake, by simp [bidDocOf, dGet], ?_, ?_⟩
  · show cGet (cSet db.bids bidId (bidDocOf now b)) bidId = _
    exact cGet_cSet_self db.bids bidId _
  · show getAllBids { db with bids := cSet db.bids bidId (bidDocOf now b) }
      (some b.campaign_id) Option.none Option.none = _
    unfold getAllBids
    dsimp only
    rw [if_pos hc, if_pos hc, cSet_fresh_append db.bids bidId _ hfresh,
      List.filter_append]
    have hflt : List.filter
        (fun p => decide (dGet p.2 "campaign_id" = some (.s b.campaign_id)))
        [(bidId, bidDocOf now b)] = [] := by
      simp [List.filter, hsnake]
    rw [hflt, List.append_nil]

/-- Witness for C10 at a concrete creation over a store already holding one
snake_case-keyed document. -/
theorem C10_witness :
    dGet (bidDocOf "T1" ⟨"c1", "farmer", Option.none, "N", "₹2,000", "10 quintals",
      "Grade A", Option.none, Option.none, "pending"⟩) "campaign_id" = Option.none ∧
    getAllBids (createBid "T1" "nb"
      { campaigns := [], bids := [("old", [("campaign_id", DVal.s "c1")])], contracts := [] }
      ⟨"c1", "farmer", Option.none, "N", "₹2,000", "10 quintals", "Grade A",
       Option.none, Option.none, "pending"⟩).1 (some "c1") Option.none Option.none =
    getAllBids
      { campaigns := [],
        bids := [("old", [("campaign_id", DVal.s "c1")])],
        contracts := [] }
      (some "c1") Option.none Option.none := by
  have h := C10_create_list_mismatch "T1" "nb"
    { campaigns := [], bids := [("old", [("campaign_id", DVal.s "c1")])], contracts := [] }
    ⟨"c1", "farmer", Option.none, "N", "₹2,000", "10 quintals", "Grade A",
     Option.none, Option.none, "pending"⟩ (by decide) (by decide)
  exact ⟨h.2.2.2.1, h.2.2.2.2.2.2⟩

end AgriBids
